import Mathlib

/-!
Verification development for the ATP-Scheduling repository.

The scheduling core (`src/utils/resolve_slots.py`) and the room-assignment
core (`src/utils/gurobi_room_optimizer.py`, `src/service/pipeline2.py`) are
shallowly embedded below.  Datetimes are modelled as absolute minutes
(`Int`): one day is 1440 minutes, the time-of-day of an instant is its
residue modulo 1440, and its weekday is the residue modulo 7 of its day
index.  Python strings are Lean `String`s; the Python `str` helpers used by
the source (`strip`, `upper`, `lower`, substring containment, `int(...)`,
`float(...)`) are modelled over the character list of the string so that
all definitions evaluate by kernel reduction.  Fallible Python code is
returned in `Except Unit`: a `.error ()` result marks an uncaught Python
exception propagating out of the translated function.
-/

namespace ATP

/-- Python `str.strip()` on ASCII whitespace. -/
def pyStrip (s : String) : String :=
  String.mk (((s.data.dropWhile Char.isWhitespace).reverse.dropWhile Char.isWhitespace).reverse)

/-- Uppercase a single ASCII character, as Python `str.upper` does. -/
def upChar (c : Char) : Char :=
  if 'a' ≤ c && c ≤ 'z' then Char.ofNat (c.toNat - 32) else c

/-- Lowercase a single ASCII character, as Python `str.lower` does. -/
def lowChar (c : Char) : Char :=
  if 'A' ≤ c && c ≤ 'Z' then Char.ofNat (c.toNat + 32) else c

/-- Python `str.upper()` (ASCII fragment). -/
def pyUpper (s : String) : String := String.mk (s.data.map upChar)

/-- Python `str.lower()` (ASCII fragment). -/
def pyLower (s : String) : String := String.mk (s.data.map lowChar)

/-- Whether `pre` is a prefix of `l` (used for the substring test). -/
def isPrefixL : List Char → List Char → Bool
  | [], _ => true
  | _ :: _, [] => false
  | a :: as, b :: bs => a == b && isPrefixL as bs

/-- Whether `pat` occurs as a contiguous substring of `l`. -/
def hasInfixL (pat : List Char) : List Char → Bool
  | [] => isPrefixL pat []
  | c :: cs => isPrefixL pat (c :: cs) || hasInfixL pat cs

/-- Python `pat in s` on strings. -/
def strContains (s pat : String) : Bool := hasInfixL pat.data s.data

/-- Python `ch in s` for a single character. -/
def hasChar (s : String) (ch : Char) : Bool := s.data.contains ch

/-- Numeric value of a digit string (characters assumed to be digits). -/
def digitsVal (l : List Char) : Int :=
  l.foldl (fun a c => a * 10 + ((c.toNat - 48 : Nat) : Int)) 0

/-- Sign split shared by the `int` and `float` parsing models: strips one
leading `+` or `-` from a trimmed character list. -/
def signSplit : List Char → Int × List Char
  | '-' :: rest => (-1, rest)
  | '+' :: rest => (1, rest)
  | l => (1, l)

/-- Python `int(s)` on a string: optional surrounding whitespace, optional
sign, then at least one digit; `none` models a raised `ValueError`. -/
def pyInt? (s : String) : Option Int :=
  let (sign, body) := signSplit (pyStrip s).data
  if body ≠ [] && body.all Char.isDigit then some (sign * digitsVal body) else none

/-- Result of Python `float(s)` on a plain decimal literal, kept exact as a
pair `(n, k)` denoting `n / 10^k`.  Exponent (`1e3`) and `inf`/`nan` forms
are modelled as parse failures: the duration strings the scheduler meets are
plain decimals, and `int(float(v))` raises on `inf`/`nan` just as it does on
a failed parse, so both roads reach the same `except` fallback. -/
def pyFloat? (s : String) : Option (Int × Nat) :=
  let (sign, body) := signSplit (pyStrip s).data
  if body.count '.' == 0 then
    if body ≠ [] && body.all Char.isDigit then some (sign * digitsVal body, 0) else none
  else if body.count '.' == 1 then
    let ip := body.takeWhile (fun c => c != '.')
    let fp := (body.dropWhile (fun c => c != '.')).tail
    if ip.all Char.isDigit && fp.all Char.isDigit && (ip ≠ [] || fp ≠ []) then
      some (sign * (digitsVal ip * (10 : Int) ^ fp.length + digitsVal fp), fp.length)
    else none
  else none

/-- Truncation toward zero of the exact value `n / 10^k`, as Python
`int(float)` performs. -/
def floatTrunc (p : Int × Nat) : Int := p.1.tdiv ((10 : Int) ^ p.2)

/-! ## resolve_slots.py — the canonical scheduler

`runner.py` wires `schedule_all` of `utils/resolve_slots.py` into the
pipeline (the `resolve_time.py` variant is commented out there), so the
definitions below are translated from `resolve_slots.py`. -/

/-- Minutes of one day. -/
def dayLen : Int := 1440

/-- The midnight instant of the day containing `t` (the `.date()` of a
datetime, as an instant). -/
def dayFloor (t : Int) : Int := t.fdiv dayLen * dayLen

/-- Weekday index of the instant `t` (`datetime.weekday()`): the day index
modulo 7.  The absolute anchoring of value 0 to Monday is a choice of
epoch and is irrelevant to the properties proved here. -/
def weekday (t : Int) : Int := (t.fdiv dayLen).emod 7

/-- Minutes past midnight of the instant `t` (`datetime.time()` as a
minute count). -/
def timeOfDay (t : Int) : Int := t.emod dayLen

/-- resolve_slots.py line 49: the half-open interval overlap test
`max(s1, s2) < min(e1, e2)`. -/
def overlaps (s1 e1 s2 e2 : Int) : Bool := decide (max s1 s2 < min e1 e2)

/-- One timetable slot `(weekday_int, start_time, end_time, crn or None)`
as produced by `load_timetable` / `tag_slots_with_crn`; slot times are
minutes past midnight. -/
structure Slot where
  wd : Int
  st : Int
  et : Int
  crn : Option String
deriving DecidableEq, Repr

/-- One exam-request row of the scheduling CSV.  `inst` is the result of
`parse_datetime(f"{row['Instructor Exam Date']} {row['Instructor Exam Time']}")`
with the tolerant `dateutil` parsing abstracted to its outcome: `none`
models the `except` branch (any parse failure), `some t` the parsed
instant.  `duration` is `row["Duration"]` seen through `str(...)`: `none`
models Python `None`.  `noam`/`nopm` are the raw `NOAM`/`NOPM` cell texts
(`row.get(...)` yields `""` when the column is missing), and `cols` lists
the remaining columns of the row in `row.index` order with their cell
texts — these carry the conflict-option flags read by `build_candidates`. -/
structure Row where
  studentId : String
  crn : String
  duration : Option String
  inst : Option Int
  noam : String
  nopm : String
  cols : List (String × String)
deriving DecidableEq, Repr

/-- Lookup of a column value with default, modelling `row.get(col, "")`. -/
def rowGet (row : Row) (col : String) : String :=
  (((row.cols.find? (fun p => p.1 == col)).map Prod.snd).getD "")

/-- Association-list lookup with default, used for Python `dict.get`. -/
def lookupD {α : Type} (l : List (String × α)) (k : String) (d : α) : α :=
  (((l.find? (fun p => p.1 == k)).map Prod.snd).getD d)

/-- resolve_slots.py lines 150-161: conflict of `[s, e)` with the student's
timetable on the same weekday, ignoring slots tagged with the exam's own
CRN.  Slot times are combined with the date of `s`. -/
def timetable_conflict (slots : List Slot) (s e : Int) (ignore_crn : String) : Bool :=
  slots.any (fun sl =>
    if sl.wd != weekday s then false
    else if (match sl.crn with | some c => c == ignore_crn | none => false) then false
    else overlaps s e (dayFloor s + sl.st) (dayFloor s + sl.et))

/-- resolve_slots.py lines 167-175: the NOAM / NOPM accommodation bounds;
09:00 is minute 540 and 18:00 is minute 1080. -/
def check_noam_nopm (row : Row) (s e : Int) : Bool :=
  let noam := pyUpper row.noam == "Y"
  let nopm := pyUpper row.nopm == "Y"
  if noam && decide (timeOfDay s < 540) then false
  else if nopm && decide (timeOfDay e > 1080) then false
  else true

/-- resolve_slots.py lines 181-191.  `.error ()` models the uncaught
`ValueError` of `int(h)` / `int(m)` when the value contains a colon but a
colon-delimited part is not an integer literal; every other branch returns
normally. -/
def parse_duration (value : Option String) : Except Unit Int :=
  match value with
  | none => .ok 0
  | some v =>
    if pyStrip v == "" then .ok 0
    else if hasChar v ':' then
      let h := String.mk (v.data.takeWhile (fun c => c != ':'))
      let m := String.mk ((v.data.dropWhile (fun c => c != ':')).tail)
      match pyInt? h, pyInt? m with
      | some hi, some mi => .ok (hi * 60 + mi)
      | _, _ => .error ()
    else
      match pyFloat? v with
      | some q => .ok (floatTrunc q)
      | none => .ok 0

/-- The fixed-offset candidate rules of resolve_slots.py lines 200-207, in
their declared order: `(column name, day offset, minutes past midnight)`. -/
def candidateRules : List (String × Int × Int) :=
  [("8:00 am the day of the exam", 0, 480),
   ("5:00 pm the day of the exam", 0, 1020),
   ("8:00 am the day BEFORE the exam", -1, 480),
   ("5:00 pm the day BEFORE the exam", -1, 1020),
   ("8:00 am the day AFTER the exam", 1, 480),
   ("5:00 pm the day AFTER the exam", 1, 1020)]

/-- `datetime.combine((inst + timedelta(days=off)).date(), fixed_time)`. -/
def fixedCandidate (inst off t : Int) : Int := dayFloor (inst + off * dayLen) + t

/-- Two-digit label fragment for the week-after candidate times. -/
def hmLabel (t : Int) : String := if t == 480 then "08:00" else "17:00"

/-- resolve_slots.py lines 197-229: the ordered candidate list.  The
instructor instant comes first; each fixed rule whose column reads `Y`
(after `str(...).upper()`) appends one candidate; then the FIRST column of
the row whose lowercased name contains both "week" and "after" is looked
up, and if its value reads `Y`, 14 candidates are appended: days 1..7
after the instructor date, at 08:00 then 17:00 within each day, labelled
`f"{week_col}+{d}@{t}"`. -/
def build_candidates (row : Row) (inst : Int) : List (String × Int) :=
  let base := [("Instructor", inst)]
  let fixed := candidateRules.flatMap (fun rc =>
    if pyUpper (rowGet row rc.1) == "Y" then [(rc.1, fixedCandidate inst rc.2.1 rc.2.2)]
    else [])
  let weekCol := row.cols.find? (fun p =>
    strContains (pyLower p.1) "week" && strContains (pyLower p.1) "after")
  let week :=
    match weekCol with
    | some (c, v) =>
      if pyUpper v == "Y" then
        (List.range 7).flatMap (fun d0 =>
          let d : Int := (d0 : Int) + 1
          [480, 1020].map (fun t =>
            (c ++ "+" ++ toString d ++ "@" ++ hmLabel t, fixedCandidate inst d t)))
      else []
    | none => []
  base ++ fixed ++ week

/-- The acceptance predicate applied to each candidate inside the loop of
`schedule_exam` (resolve_slots.py lines 249-267): the accommodation bound,
the timetable check with self-exemption, and the exam-to-exam check against
the student's committed intervals. -/
def accepts (row : Row) (slots : List Slot) (existing : List (Int × Int)) (dur : Int)
    (c : String × Int) : Bool :=
  let s := c.2
  let e := s + dur
  check_noam_nopm row s e &&
  !timetable_conflict slots s e (pyStrip row.crn) &&
  existing.all (fun p => !overlaps s e p.1 p.2)

/-- resolve_slots.py lines 235-272: schedule one exam request.  Returns the
pair `(scheduled, error)` of the source; `.error ()` propagates the
uncaught exception of `parse_duration`. -/
def schedule_exam (row : Row) (slots : List Slot) (existing : List (Int × Int)) :
    Except Unit (Option (Int × Int × String) × Option String) :=
  match row.inst with
  | none => .ok (none, some "Invalid instructor date/time")
  | some inst =>
    match parse_duration row.duration with
    | .error e => .error e
    | .ok dur =>
      match (build_candidates row inst).find? (accepts row slots existing dur) with
      | some c => .ok (some (c.2, c.2 + dur, c.1), none)
      | none => .ok (none, some "No available slot")

/-- One output row of `schedule_all`, restricted to the fields the claims
read.  `studentId` is the stripped student id (the identity used for
grouping); on failure the start/end cells are the empty strings of the
source, modelled as `none`. -/
structure OutRow where
  studentId : String
  scheduledStart : Option Int
  scheduledEnd : Option Int
  label : String
  status : String
deriving DecidableEq, Repr

/-- The loop of resolve_slots.py lines 281-307, threading the
`exams_for_student` accumulator.  The timetable is the mapping after the
in-place `tag_slots_with_crn` pass (line 279): that pass only rewrites the
timetable argument before the loop reads it, so the loop is stated over an
arbitrary timetable, which includes every tagged one. -/
def schedule_all_aux (tt : List (String × List Slot)) :
    List Row → List (String × List (Int × Int)) → Except Unit (List OutRow)
  | [], _ => .ok []
  | row :: rest, acc =>
    let sid := pyStrip row.studentId
    let slots := lookupD tt sid []
    let existing := lookupD acc sid []
    match schedule_exam row slots existing with
    | .error e => .error e
    | .ok (some (s, e, label), _) =>
      match schedule_all_aux tt rest ((sid, existing ++ [(s, e)]) :: acc) with
      | .error err => .error err
      | .ok outs =>
        .ok ({ studentId := sid, scheduledStart := some s, scheduledEnd := some e,
               label := label, status := "SCHEDULED" } :: outs)
    | .ok (none, msg) =>
      match schedule_all_aux tt rest acc with
      | .error err => .error err
      | .ok outs =>
        .ok ({ studentId := sid, scheduledStart := none, scheduledEnd := none,
               label := "", status := msg.getD "" } :: outs)

/-- resolve_slots.py lines 278-310: schedule every request, starting from an
empty per-student commitment table. -/
def schedule_all (df : List Row) (tt : List (String × List Slot)) :
    Except Unit (List OutRow) :=
  schedule_all_aux tt df []

/-! ## gurobi_room_optimizer.py — the exact optimizer

The integer program is embedded as data: binary variables, the constraint
list the source builds, and the objective.  The commercial solver is the
black box the spec describes, modelled as a `Backend` that either raises or
returns an `Outcome` (status, incumbent count, variable values).  Exam
groups carry their parsed start/end instants and student counts; a room row
carries the normalized columns of the rooms DataFrame, with `none` for an
absent or unparsable cell (the source's `except` fallbacks). -/

structure Group where
  start : Int
  stop : Int
  count : Int
deriving DecidableEq, Repr

structure RoomRow where
  location : String
  capacity? : Option Int
  start? : Option Int
  stop? : Option Int
deriving DecidableEq, Repr

/-- The per-room record stored in `room_info` (lines 113-117). -/
structure RInfo where
  capacity : Int
  start? : Option Int
  stop? : Option Int
deriving DecidableEq, Repr

/-- Decision variables: `x i r` is `x[i, r]`, `y r` is `room_used[r]`. -/
inductive Var
  | x (i : Nat) (r : String)
  | y (r : String)
deriving DecidableEq, Repr

/-- The linear constraint shapes the source adds to the model. -/
inductive Constr
  | eqZero (v : Var)
  | sumEqOne (vs : List Var)
  | leCap (terms : List (Int × Var)) (cap : Int)
  | pairLeOne (a b : Var)
  | linkLe (a b : Var)
deriving DecidableEq, Repr

/-- `rooms_df[col].unique().tolist()` (line 81): first-occurrence
deduplication of the raw location column. -/
def dedupFirst (l : List String) : List String :=
  l.foldl (fun acc s => if acc.contains s then acc else acc ++ [s]) []

/-- Lines 86-117: build the `room_info` dictionary.  Rows whose stripped
location is empty or reads `nan` are skipped; capacity defaults to 1 when
the column is absent or unparsable.  Prepending models dictionary
overwrite under first-match lookup. -/
def roomInfoOf (rooms : List RoomRow) : List (String × RInfo) :=
  rooms.foldl (fun m row =>
    let location := pyStrip row.location
    if location == "" || pyLower location == "nan" then m
    else (location, ⟨row.capacity?.getD 1, row.start?, row.stop?⟩) :: m) []

/-- Dictionary lookup `room_info[r]`; `none` is a `KeyError`. -/
def roomInfo? (m : List (String × RInfo)) (r : String) : Option RInfo :=
  (m.find? (fun p => p.1 == r)).map Prod.snd

/-- Lines 332-356: symmetric-tolerance overlap of two exam groups. -/
def exams_overlap (g1 g2 : Group) (tol : Int) : Bool :=
  decide (max (g1.start - tol) (g2.start - tol) < min (g1.stop + tol) (g2.stop + tol))

/-- Lines 138-216: the constraint list, in the order the source adds it:
one-room-per-group, per-room capacity, availability windows, pairwise
overlap exclusion, and the `x ≤ y` linking constraints (constraint 5 is
skipped by the source). -/
def constraintsOf (groups : List Group) (locs : List String) (info : String → RInfo)
    (tol : Int) : List Constr :=
  (List.range groups.length).map (fun i => .sumEqOne (locs.map (Var.x i)))
  ++ locs.map (fun r =>
       .leCap (groups.enum.map (fun ig => (ig.2.count, Var.x ig.1 r))) (info r).capacity)
  ++ groups.enum.flatMap (fun ig => locs.flatMap (fun r =>
       match (info r).start?, (info r).stop? with
       | some rs, some re =>
         (if decide (ig.2.start < rs) then [Constr.eqZero (Var.x ig.1 r)] else []) ++
         (if decide (ig.2.stop > re) then [Constr.eqZero (Var.x ig.1 r)] else [])
       | _, _ => []))
  ++ groups.enum.flatMap (fun ig => groups.enum.flatMap (fun jg =>
       if ig.1 < jg.1 && exams_overlap ig.2 jg.2 tol then
         locs.map (fun r => Constr.pairLeOne (Var.x ig.1 r) (Var.x jg.1 r))
       else []))
  ++ groups.enum.flatMap (fun ig => locs.map (fun r => Constr.linkLe (Var.x ig.1 r) (Var.y r)))

/-- Lines 218-238: the objective, as `(numerator, denominator)` coefficients
on variables (`minimize_weighted` uses the exact value `1 / max(cap, 1)`). -/
def objectiveOf (groups : List Group) (locs : List String) (info : String → RInfo)
    (objective : String) : List ((Int × Int) × Var) :=
  if objective == "minimize_rooms" then locs.map (fun r => ((1, 1), Var.y r))
  else if objective == "minimize_weighted" then
    groups.enum.flatMap (fun ig =>
      locs.map (fun r => ((1, max (info r).capacity 1), Var.x ig.1 r)))
  else
    groups.enum.flatMap (fun ig =>
      locs.map (fun r => (((info r).capacity, 1), Var.x ig.1 r)))

structure BuiltModel where
  locs : List String
  constraints : List Constr
  objective : List ((Int × Int) × Var)

/-- The model-construction phase (lines 75-238), which runs OUTSIDE the
`try` of the source.  A location of `room_locations` missing from
`room_info` makes `room_info[r]` raise a `KeyError` inside the constraint
loops; the partially built model is discarded unobserved, so the lookups
are checked up front here.  `.error ()` is that uncaught exception. -/
def buildModel (groups : List Group) (rooms : List RoomRow) (tol : Int)
    (objective : String) : Except Unit BuiltModel :=
  let locs := dedupFirst (rooms.map (·.location))
  let m := roomInfoOf rooms
  if locs.all (fun r => (roomInfo? m r).isSome) then
    let info := fun r => (roomInfo? m r).getD ⟨1, none, none⟩
    .ok ⟨locs, constraintsOf groups locs info tol, objectiveOf groups locs info objective⟩
  else .error ()

/-- Solver termination statuses surfaced by the source's branches. -/
inductive GStatus
  | optimal
  | infeasible
  | timeLimit
  | other (code : Int)
deriving DecidableEq, Repr

/-- What one `model.optimize()` call of the black-box solver yields:
a status, the incumbent count, the binary variable values (`.X > 0.5`),
and the objective value. -/
structure Outcome where
  status : GStatus
  solCount : Nat
  sol : Var → Bool
  objVal : Int

/-- The black-box solver interface: a possible fault during the
construction-phase API calls (`gp.Model`, `addVar`, `addConstr`), and the
result of `model.optimize()` — `.error ()` is a solver fault raised
during the solve. -/
structure Backend where
  buildFault : Option Unit
  solve : Except Unit Outcome

/-- The result dictionary of `build_and_solve_ilp`, restricted to the
fields the claims read. -/
structure IlpResult where
  assignment_map : List (Nat × List String)
  status : String
  objective_value : Option Int
deriving DecidableEq, Repr

/-- Lines 246-253 and 267-272: read the solution back, keeping for each
group the rooms whose binary variable is set. -/
def extractAssignment (n : Nat) (locs : List String) (sol : Var → Bool) :
    List (Nat × List String) :=
  (List.range n).map (fun i => (i, locs.filter (fun r => sol (Var.x i r))))

/-- Lines 240-303: the `try` block.  Every fault of the solve phase is
caught and becomes status `ERROR` with an empty assignment. -/
def solvePhase (n : Nat) (locs : List String) (bk : Backend) : IlpResult :=
  match bk.solve with
  | .error _ => ⟨[], "ERROR", none⟩
  | .ok oc =>
    match oc.status with
    | .optimal => ⟨extractAssignment n locs oc.sol, "OPTIMAL", some oc.objVal⟩
    | .infeasible => ⟨[], "INFEASIBLE", none⟩
    | .timeLimit =>
      if oc.solCount > 0 then ⟨extractAssignment n locs oc.sol, "TIME_LIMIT", some oc.objVal⟩
      else ⟨[], "TIME_LIMIT", none⟩
    | .other c => ⟨[], "STATUS_" ++ toString c, none⟩

/-- gurobi_room_optimizer.py lines 17-303: the full optimizer entry point.
The two empty-input guards return before any solver object exists; model
construction runs unprotected (its faults propagate as `.error`); the
solve phase is guarded by the `try`. -/
def build_and_solve_ilp (groups : List Group) (rooms : List RoomRow)
    (objective : String) (tol : Int) (bk : Backend) : Except Unit IlpResult :=
  if groups.isEmpty then .ok ⟨[], "NO_EXAMS", some 0⟩
  else if rooms.isEmpty then .ok ⟨[], "NO_ROOMS", some 0⟩
  else
    match bk.buildFault with
    | some e => .error e
    | none =>
      match buildModel groups rooms tol objective with
      | .error e => .error e
      | .ok m => .ok (solvePhase groups.length m.locs bk)

/-- Integer value of a binary variable under a solution. -/
def varVal (sol : Var → Bool) (v : Var) : Int := if sol v then 1 else 0

/-- Truth of one constraint under a (binary) variable assignment. -/
def satC (sol : Var → Bool) : Constr → Bool
  | .eqZero v => !(sol v)
  | .sumEqOne vs => (vs.foldl (fun a v => a + varVal sol v) 0) == 1
  | .leCap terms cap => decide ((terms.foldl (fun a t => a + t.1 * varVal sol t.2) 0) ≤ cap)
  | .pairLeOne a b => decide (varVal sol a + varVal sol b ≤ 1)
  | .linkLe a b => decide (varVal sol a ≤ varVal sol b)

/-- Truth of a whole constraint list under an assignment. -/
def satAll (cs : List Constr) (sol : Var → Bool) : Bool := cs.all (satC sol)

/-! ## pipeline2.py — greedy room assignment, and applying ILP results

A scheduled-exam table cell that holds either the original text or an
already-parsed datetime is a `TVal`; `pd.to_datetime(value, errors="coerce")`
maps raw text through the external parser (a function parameter, since
pandas datetime parsing is an external collaborator) and is the identity on
already-parsed values, with `none` as `NaT`. -/

inductive TVal
  | raw (s : String)
  | dt (t : Option Int)
deriving DecidableEq, Repr

/-- One row of the scheduled-exam DataFrame, restricted to the columns the
room assigners read and write.  `statusAlias` is the `Status` column. -/
@[ext]
structure ExamRow where
  studentId : String
  scheduleStatus : String
  schedStart : TVal
  schedEnd : TVal
  roomId : String
  roomName : String
  roomLoc : String
  roomStatus : String
  statusAlias : String
deriving DecidableEq, Repr

/-- A room dictionary from the LIV25 search results.  String fields are
`none` when the key is absent; `rid` is the `id` key.  `rstart`/`rend`
merge the `start time`/`start_time` spellings, with `none` for a missing,
falsy or unparsable window bound (the source treats a failed parse as
"assume available", like a missing bound). -/
structure SRoom where
  location : Option String
  rid : Option String
  room_id : Option String
  name : Option String
  room_name : Option String
  rstart : Option Int
  rend : Option Int
  capacity : Option Int
deriving DecidableEq, Repr

/-- Python `a or b` for a possibly-missing string `a`: missing and empty
both fall through. -/
def pyOrS : Option String → String → String
  | none, d => d
  | some s, d => if s == "" then d else s

/-- One entry of `room_search_results`. -/
structure SearchResult where
  rstart : Int
  rend : Int
  rooms : List SRoom
deriving DecidableEq, Repr

/-- Generic association-list lookup with default (Python `dict.get`). -/
def lookupP {κ α : Type} [BEq κ] (l : List (κ × α)) (k : κ) (d : α) : α :=
  (((l.find? (fun p => p.1 == k)).map Prod.snd).getD d)

/-- `pd.to_datetime(value, errors="coerce")` on a table cell. -/
def tvalParse (parse : String → Option Int) : TVal → Option Int
  | .raw s => parse s
  | .dt t => t

/-- The parsed instant held by a cell, `none` when it is `NaT` (or still
raw text, which the assigners never meet: both run after the parse pass). -/
def tvalTime : TVal → Option Int
  | .raw _ => none
  | .dt t => t

/-- pipeline2.py lines 243-251 (and gurobi_room_optimizer.py lines
375-383): reset the four assignment columns to `""` and overwrite the
`Scheduled Start`/`Scheduled End` cells with their parsed datetimes. -/
def parseRow (parse : String → Option Int) (row : ExamRow) : ExamRow :=
  { row with roomId := "", roomName := "", roomLoc := "", roomStatus := "",
             schedStart := .dt (tvalParse parse row.schedStart),
             schedEnd := .dt (tvalParse parse row.schedEnd) }

/-- pipeline2.py lines 237-241: the exact-time-key room map, with later
duplicate keys overwriting earlier ones. -/
def roomMapOf (results : List SearchResult) : List ((Int × Int) × List SRoom) :=
  results.foldl (fun m res => ((res.rstart, res.rend), res.rooms) :: m) []

/-- The per-(start, end, room) occupant lists (`room_assignments` /
`room_usage`). -/
def Asg := List ((Int × Int × String) × List String)

/-- The fields of a row that the per-row assignment logic reads. -/
structure StepIn where
  studentId : String
  scheduleStatus : String
  sStart : Option Int
  sEnd : Option Int
deriving DecidableEq, Repr

def readIn (r : ExamRow) : StepIn :=
  ⟨r.studentId, r.scheduleStatus, tvalTime r.schedStart, tvalTime r.schedEnd⟩

/-- The four cells a row-assignment step writes. -/
structure RoomWrite where
  roomId : String
  roomName : String
  roomLoc : String
  roomStatus : String
deriving DecidableEq, Repr

def applyWrite (r : ExamRow) (w : RoomWrite) : ExamRow :=
  { r with roomId := w.roomId, roomName := w.roomName,
           roomLoc := w.roomLoc, roomStatus := w.roomStatus }

/-- pipeline2.py lines 278-330: scan the candidate rooms in inventory
order; skip a room whose availability window does not contain the exam;
take the first with spare capacity, recording the student under the
`(start, end, room_id)` key. -/
def tryRoomsGreedy (s e : Int) (sid : String) (asg : Asg) :
    List SRoom → Option (String × String × String × Asg)
  | [] => none
  | room :: rest =>
    let room_id := pyOrS room.location (pyOrS room.rid (pyOrS room.room_id (pyOrS room.name "")))
    let room_name := pyOrS room.name (pyOrS room.room_name (pyOrS room.location room_id))
    let cap := room.capacity.getD 1
    let avail : Bool :=
      match room.rstart, room.rend with
      | some rs, some re => !(decide (s < rs) || decide (e > re))
      | _, _ => true
    if !avail then tryRoomsGreedy s e sid asg rest
    else
      let akey := (s, e, room_id)
      let current := lookupP asg akey []
      if decide ((current.length : Int) < cap) then
        some (room_id, room_name, room.location.getD room_id, ((akey, current ++ [sid]) :: asg))
      else tryRoomsGreedy s e sid asg rest

/-- pipeline2.py lines 256-333, one iteration: the status written for a
non-scheduled row, an unparsable time, a missing or empty room list, a
successful first fit, or exhausted capacity. -/
def stepCore (rm : List ((Int × Int) × List SRoom)) (inp : StepIn) (asg : Asg) :
    RoomWrite × Asg :=
  if inp.scheduleStatus != "SCHEDULED" then
    (⟨"", "", "", "No room needed - exam not scheduled"⟩, asg)
  else
    match inp.sStart, inp.sEnd with
    | some s, some e =>
      (match lookupP rm (s, e) [] with
       | [] => (⟨"", "", "", "No rooms available"⟩, asg)
       | r0 :: rrest =>
         match tryRoomsGreedy s e inp.studentId asg (r0 :: rrest) with
         | some (rid, rname, rloc, asg2) => (⟨rid, rname, rloc, "Assigned"⟩, asg2)
         | none => (⟨"", "", "", "No available rooms with capacity"⟩, asg))
    | _, _ => (⟨"", "", "", "Invalid time slot"⟩, asg)

/-- Iterate a per-row assignment step down the table, threading the
occupancy accumulator. -/
def rowLoop (core : StepIn → Asg → RoomWrite × Asg) : List ExamRow → Asg → List ExamRow
  | [], _ => []
  | row :: rest, asg =>
    let wa := core (readIn row) asg
    applyWrite row wa.1 :: rowLoop core rest wa.2

/-- pipeline2.py lines 336-339: the final `Status` alias column. -/
def setAlias (r : ExamRow) : ExamRow := { r with statusAlias := r.roomStatus }

/-- pipeline2.py lines 226-341: the greedy assigner as a function on the
table value (its in-place effect on the caller's object is modelled by
`greedy_call` below). -/
def assign_rooms_greedy (parse : String → Option Int) (df : List ExamRow)
    (results : List SearchResult) : List ExamRow :=
  (rowLoop (stepCore (roomMapOf results)) (df.map (parseRow parse)) []).map setAlias

/-- gurobi_room_optimizer.py lines 394-400: map each assigned group index
below `len(exam_groups)` to its `(start, end)` key; prepending models
dictionary overwrite. -/
def timeToRoomsOf (groups : List Group) (amap : List (Nat × List String)) :
    List ((Int × Int) × List String) :=
  amap.foldl (fun m p =>
    match groups.get? p.1 with
    | some g => ((g.start, g.stop), p.2) :: m
    | none => m) []

/-- gurobi_room_optimizer.py lines 402-415: the room-capacity lookup table
(stripped location, capacity defaulting to 1). -/
def roomCapsOf (roomsOpt : Option (List RoomRow)) : List (String × Int) :=
  match roomsOpt with
  | none => []
  | some rooms => rooms.foldl (fun m row => (pyStrip row.location, row.capacity?.getD 1) :: m) []

/-- gurobi_room_optimizer.py lines 443-463: distribute a student over the
rooms the ILP assigned to the row's time slot, first room with spare
capacity wins. -/
def tryRoomsIlp (caps : List (String × Int)) (s e : Int) (sid : String) (asg : Asg) :
    List String → Option (String × Asg)
  | [] => none
  | loc :: rest =>
    let akey := (s, e, loc)
    let current := lookupP asg akey []
    let cap := lookupP caps loc 1
    if decide ((current.length : Int) < cap) then some (loc, ((akey, current ++ [sid]) :: asg))
    else tryRoomsIlp caps s e sid asg rest

/-- gurobi_room_optimizer.py lines 421-468, one iteration. -/
def ilpStepCore (t2r : List ((Int × Int) × List String)) (caps : List (String × Int))
    (inp : StepIn) (asg : Asg) : RoomWrite × Asg :=
  if inp.scheduleStatus != "SCHEDULED" then
    (⟨"", "", "", "No room needed - exam not scheduled"⟩, asg)
  else
    match inp.sStart, inp.sEnd with
    | some s, some e =>
      (match lookupP t2r (s, e) [] with
       | [] => (⟨"", "", "", "No rooms assigned by ILP"⟩, asg)
       | r0 :: rrest =>
         match tryRoomsIlp caps s e inp.studentId asg (r0 :: rrest) with
         | some (loc, asg2) => (⟨loc, loc, loc, "Assigned (ILP)"⟩, asg2)
         | none => (⟨"", "", "", "All assigned rooms at capacity"⟩, asg))
    | _, _ => (⟨"", "", "", "Invalid time slot"⟩, asg)

/-- gurobi_room_optimizer.py lines 359-476: apply ILP results — on a COPY
of the table (`df = df.copy()` on line 373), which is why this is a plain
function of the table value; `ilp_apply_call` below models the object
discipline. -/
def apply_ilp_assignments_to_dataframe (parse : String → Option Int) (df : List ExamRow)
    (groups : List Group) (ilpResult : IlpResult) (roomsOpt : Option (List RoomRow)) :
    List ExamRow :=
  let df1 := df.map (parseRow parse)
  if ilpResult.assignment_map.isEmpty then
    (df1.map (fun r =>
      if r.scheduleStatus == "SCHEDULED" then { r with roomStatus := "No rooms assigned by ILP" }
      else r)).map setAlias
  else
    (rowLoop (ilpStepCore (timeToRoomsOf groups ilpResult.assignment_map) (roomCapsOf roomsOpt))
      df1 []).map setAlias

/-! ### Object store

Python frames are heap objects; a `Store` is the heap (a list of table
values) and a reference is an index.  An in-place update writes through the
reference; `df.copy()` allocates a fresh object. -/

abbrev Store := List (List ExamRow)

def storeGet (σ : Store) (ref : Nat) : List ExamRow := (List.get? σ ref).getD []

/-- Calling `Pipeline2._assign_rooms_greedy(df, room_search_results)`: the
column writes land on the caller's object, and the function returns that
same object. -/
def greedy_call (parse : String → Option Int) (σ : Store) (ref : Nat)
    (results : List SearchResult) : Store × Nat :=
  (List.set σ ref (assign_rooms_greedy parse (storeGet σ ref) results), ref)

/-- Calling `apply_ilp_assignments_to_dataframe(df, ...)`: the copy is a
fresh allocation, the caller's object is untouched, and the fresh
reference is returned. -/
def ilp_apply_call (parse : String → Option Int) (σ : Store) (ref : Nat)
    (groups : List Group) (ilpResult : IlpResult) (roomsOpt : Option (List RoomRow)) :
    Store × Nat :=
  (σ ++ [apply_ilp_assignments_to_dataframe parse (storeGet σ ref) groups ilpResult roomsOpt],
   σ.length)

/-- The intervals of the rows of `outs` that are marked `SCHEDULED` for
student `sid`, in output order. -/
def schedIntervals (sid : String) (outs : List OutRow) : List (Int × Int) :=
  outs.filterMap (fun r =>
    if r.studentId == sid && r.status == "SCHEDULED" then
      match r.scheduledStart, r.scheduledEnd with
      | some s, some e => some (s, e)
      | _, _ => none
    else none)

/-- Two intervals do not overlap under the half-open test. -/
def nonOv (a b : Int × Int) : Prop := overlaps a.1 a.2 b.1 b.2 = false

/-! ### Concrete instances used by the witnesses -/

def wReq : Row := ⟨"s1", "c1", none, some 600, "", "", []⟩

def wReqA : Row := ⟨"s1", "c1", some "60", some 600, "", "", []⟩

def wReqB : Row := ⟨"s1", "c2", some "30", some 3000, "", "", []⟩

def wOutA : OutRow := ⟨"s1", some 600, some 660, "Instructor", "SCHEDULED"⟩

def wOutB : OutRow := ⟨"s1", some 3000, some 3030, "Instructor", "SCHEDULED"⟩

/-- Modelled from the amended wording of the candidate-order claim: the
instructor instant first; then one candidate per enabled fixed-offset flag
in declared order; then, driven solely by the FIRST column whose lowercase
name contains "week" and "after", and only if that column reads Y, one
08:00 and one 17:00 candidate for each day offset 1..7 in ascending day
order, the label encoding the week column, the offset and the time.  Other
week-after columns are ignored. -/
def build_candidates_amended (row : Row) (inst : Int) : List (String × Int) :=
  ("Instructor", inst) ::
  (((candidateRules.filter (fun rc => pyUpper (rowGet row rc.1) == "Y")).map
      (fun rc => (rc.1, fixedCandidate inst rc.2.1 rc.2.2)))
   ++
   (match row.cols.find? (fun p =>
       strContains (pyLower p.1) "week" && strContains (pyLower p.1) "after") with
    | some cv =>
      if pyUpper cv.2 == "Y" then
        ([1, 2, 3, 4, 5, 6, 7] : List Int).flatMap (fun d =>
          [(cv.1 ++ "+" ++ toString d ++ "@" ++ "08:00", fixedCandidate inst d 480),
           (cv.1 ++ "+" ++ toString d ++ "@" ++ "17:00", fixedCandidate inst d 1020)])
      else []
    | none => []))

/-! ## Helper lemmas -/

/-- The half-open overlap test is symmetric. -/
theorem overlaps_comm (s1 e1 s2 e2 : Int) : overlaps s1 e1 s2 e2 = overlaps s2 e2 s1 e1 := by
  simp [overlaps, max_comm, min_comm]

/-- A zero-width interval overlaps nothing under the half-open test. -/
theorem overlaps_self_zero (s a b : Int) : overlaps s s a b = false := by
  simp only [overlaps, decide_eq_false_iff_not, not_lt]
  exact le_trans (min_le_left s b) (le_max_left s a)

/-- A zero-width interval conflicts with no timetable slot. -/
theorem timetable_conflict_zero_width (slots : List Slot) (s : Int) (ignore_crn : String) :
    timetable_conflict slots s s ignore_crn = false := by
  rw [timetable_conflict, List.any_eq_false]
  intro sl _
  by_cases h1 : sl.wd != weekday s
  · simp [h1]
  · by_cases h2 : (match sl.crn with | some c => c == ignore_crn | none => false) = true
    · simp [h1, h2]
    · simp [h1, h2, overlaps_self_zero]

/-- A successful `find?` returns the first element satisfying the
predicate: everything before it fails. -/
theorem find?_first {α : Type} (p : α → Bool) (l : List α) (a : α)
    (h : l.find? p = some a) :
    p a = true ∧ ∃ l1 l2, l = l1 ++ a :: l2 ∧ ∀ x ∈ l1, p x = false := by
  induction l with
  | nil => simp [List.find?] at h
  | cons b t ih =>
    cases hb : p b with
    | true =>
      rw [List.find?_cons_of_pos _ hb] at h
      cases h
      exact ⟨hb, [], t, rfl, by simp⟩
    | false =>
      rw [List.find?_cons_of_neg _ (by simp [hb])] at h
      obtain ⟨hpa, l1, l2, hsplit, hfail⟩ := ih h
      refine ⟨hpa, b :: l1, l2, by rw [List.cons_append, hsplit], ?_⟩
      intro x hx
      rcases List.mem_cons.mp hx with hx | hx
      · cases hx; exact hb
      · exact hfail x hx

/-- Unfolding of the association lookup over a cons cell. -/
theorem lookupD_cons (k t : String) {α : Type} (v : α) (l : List (String × α)) (d : α) :
    lookupD ((k, v) :: l) t d = if (k == t) = true then v else lookupD l t d := by
  cases h : k == t <;> simp [lookupD, List.find?, h]

/-- What a successful run of `schedule_exam` guarantees about the returned
interval: the instructor instant and duration parsed, the end is start
plus duration, the accepted candidate passes the three checks, and every
earlier candidate in the generated order fails the acceptance predicate. -/
theorem schedule_exam_ok_spec (row : Row) (slots : List Slot)
    (existing : List (Int × Int)) (s e : Int) (label : String) (msg : Option String)
    (h : schedule_exam row slots existing = .ok (some (s, e, label), msg)) :
    ∃ inst dur,
      row.inst = some inst ∧
      parse_duration row.duration = .ok dur ∧
      e = s + dur ∧
      check_noam_nopm row s e = true ∧
      timetable_conflict slots s e (pyStrip row.crn) = false ∧
      (∀ p ∈ existing, overlaps s e p.1 p.2 = false) ∧
      ∃ l1 l2, build_candidates row inst = l1 ++ (label, s) :: l2 ∧
        ∀ c ∈ l1, accepts row slots existing dur c = false := by
  cases hi : row.inst with
  | none => simp [schedule_exam, hi] at h
  | some inst =>
    cases hd : parse_duration row.duration with
    | error err => simp [schedule_exam, hi, hd] at h
    | ok dur =>
      cases hf : (build_candidates row inst).find? (accepts row slots existing dur) with
      | none => simp [schedule_exam, hi, hd, hf] at h
      | some c =>
        simp only [schedule_exam, hi, hd, hf, Except.ok.injEq, Prod.mk.injEq,
          Option.some.injEq] at h
        obtain ⟨⟨hs, he, hl⟩, _⟩ := h
        subst hs; subst he; subst hl
        obtain ⟨hacc, l1, l2, hsplit, hfail⟩ := find?_first _ _ _ hf
        rw [accepts] at hacc
        simp only [Bool.and_eq_true, Bool.not_eq_true'] at hacc
        obtain ⟨⟨hnoam, httc⟩, hex⟩ := hacc
        refine ⟨inst, dur, rfl, rfl, rfl, hnoam, httc, ?_, l1, l2, ?_, hfail⟩
        · intro p hp
          have := List.all_eq_true.mp hex p hp
          simpa using this
        · simp [hsplit]

/-- The committed-interval invariant of the scheduling loop: starting from
an accumulator whose per-student lists are pairwise non-overlapping, the
accumulator entry followed by the intervals scheduled by the rest of the
run stays pairwise non-overlapping, for every student. -/
theorem schedule_all_aux_pairwise (tt : List (String × List Slot)) (df : List Row) :
    ∀ (acc : List (String × List (Int × Int))) (outs : List OutRow),
      schedule_all_aux tt df acc = .ok outs →
      (∀ t, (lookupD acc t []).Pairwise nonOv) →
      ∀ sid, (lookupD acc sid [] ++ schedIntervals sid outs).Pairwise nonOv := by
  induction df with
  | nil =>
    intro acc outs h hacc sid
    simp only [schedule_all_aux, Except.ok.injEq] at h
    subst h
    simpa [schedIntervals] using hacc sid
  | cons row rest ih =>
    intro acc outs h hacc sid
    cases hse : schedule_exam row (lookupD tt (pyStrip row.studentId) [])
        (lookupD acc (pyStrip row.studentId) []) with
    | error err =>
      simp only [schedule_all_aux, hse] at h
      exact Except.noConfusion h
    | ok val =>
      obtain ⟨osched, msg⟩ := val
      cases osched with
      | some trip =>
        obtain ⟨s, e, label⟩ := trip
        cases hrec : schedule_all_aux tt rest
            ((pyStrip row.studentId,
              lookupD acc (pyStrip row.studentId) [] ++ [(s, e)]) :: acc) with
        | error err =>
          simp only [schedule_all_aux, hse, hrec] at h
          exact Except.noConfusion h
        | ok outs2 =>
          simp only [schedule_all_aux, hse, hrec, Except.ok.injEq] at h
          subst h
          have hov : ∀ p ∈ lookupD acc (pyStrip row.studentId) [],
              overlaps s e p.1 p.2 = false := by
            obtain ⟨inst, dur, _, _, _, _, _, hov, _⟩ :=
              schedule_exam_ok_spec _ _ _ _ _ _ _ hse
            exact hov
          have hacc2 : ∀ t,
              (lookupD ((pyStrip row.studentId,
                lookupD acc (pyStrip row.studentId) [] ++ [(s, e)]) :: acc) t []).Pairwise
                nonOv := by
            intro t
            rw [lookupD_cons]
            by_cases hst : (pyStrip row.studentId == t) = true
            · rw [if_pos hst, List.pairwise_append]
              refine ⟨hacc _, by simp, ?_⟩
              intro a ha b hb
              simp only [List.mem_singleton] at hb
              subst hb
              show overlaps a.1 a.2 s e = false
              rw [overlaps_comm]
              exact hov a ha
            · rw [if_neg hst]
              exact hacc t
          have ihall := ih _ outs2 hrec hacc2
          by_cases hsid : (pyStrip row.studentId == sid) = true
          · have heq : pyStrip row.studentId = sid := eq_of_beq hsid
            subst heq
            have ih1 := ihall (pyStrip row.studentId)
            rw [lookupD_cons, if_pos (by simp), List.append_assoc] at ih1
            simpa [schedIntervals, List.filterMap_cons] using ih1
          · have hne : pyStrip row.studentId ≠ sid := fun hc => hsid (by simp [hc])
            have ih1 := ihall sid
            rw [lookupD_cons, if_neg hsid] at ih1
            simpa [schedIntervals, List.filterMap_cons, hne] using ih1
      | none =>
        cases hrec : schedule_all_aux tt rest acc with
        | error err =>
          simp only [schedule_all_aux, hse, hrec] at h
          exact Except.noConfusion h
        | ok outs2 =>
          simp only [schedule_all_aux, hse, hrec, Except.ok.injEq] at h
          subst h
          have ih1 := ih acc outs2 hrec hacc sid
          simpa [schedIntervals, List.filterMap_cons] using ih1

/-! ## Claim theorems -/

/-- C1: for every exam-request sequence processed by `schedule_all` and
every timetable, and for every student, no two output rows marked
SCHEDULED for that student carry overlapping `[start, end)` intervals
under the half-open test — the scheduler commits each interval to the
student's list before evaluating the next request, so the committed set
stays pairwise non-overlapping. -/
theorem schedule_all_no_student_overlap (df : List Row) (tt : List (String × List Slot))
    (outs : List OutRow) (h : schedule_all df tt = .ok outs) (sid : String) :
    (schedIntervals sid outs).Pairwise nonOv := by
  have base : ∀ t, (lookupD ([] : List (String × List (Int × Int))) t []).Pairwise nonOv := by
    intro t; simp [lookupD, List.find?]
  have hmain := schedule_all_aux_pairwise tt df [] outs h base sid
  simpa [lookupD, List.find?] using hmain

/-- Witness for C1: a two-request run for one student schedules both exams
and their intervals are pairwise non-overlapping. -/
theorem schedule_all_no_student_overlap_witness :
    schedule_all [wReqA, wReqB] [] = .ok [wOutA, wOutB] ∧
    (schedIntervals "s1" [wOutA, wOutB]).Pairwise nonOv :=
  ⟨rfl, schedule_all_no_student_overlap [wReqA, wReqB] [] [wOutA, wOutB] rfl "s1"⟩

/-- C2: a request that `schedule_exam` returns as scheduled got the FIRST
candidate of the generated order that simultaneously passes the
accommodation bound, the timetable check with self-exemption, and
non-overlap with every interval already committed for the student: the
winning candidate passes all three on the same inputs, and every earlier
candidate fails the acceptance predicate. -/
theorem schedule_exam_first_accepted_candidate (row : Row) (slots : List Slot)
    (existing : List (Int × Int)) (s e : Int) (label : String) (msg : Option String)
    (h : schedule_exam row slots existing = .ok (some (s, e, label), msg)) :
    ∃ inst dur,
      row.inst = some inst ∧
      parse_duration row.duration = .ok dur ∧
      e = s + dur ∧
      check_noam_nopm row s e = true ∧
      timetable_conflict slots s e (pyStrip row.crn) = false ∧
      (∀ p ∈ existing, overlaps s e p.1 p.2 = false) ∧
      ∃ l1 l2, build_candidates row inst = l1 ++ (label, s) :: l2 ∧
        ∀ c ∈ l1, accepts row slots existing dur c = false :=
  schedule_exam_ok_spec row slots existing s e label msg h

/-- Witness for C2 at a concrete request that schedules at the instructor
instant. -/
theorem schedule_exam_first_accepted_candidate_witness :
    ∃ inst dur,
      wReq.inst = some inst ∧
      parse_duration wReq.duration = .ok dur ∧
      (600 : Int) = 600 + dur ∧
      check_noam_nopm wReq 600 600 = true ∧
      timetable_conflict [] 600 600 (pyStrip wReq.crn) = false ∧
      (∀ p ∈ ([] : List (Int × Int)), overlaps 600 600 p.1 p.2 = false) ∧
      ∃ l1 l2, build_candidates wReq inst = l1 ++ ("Instructor", 600) :: l2 ∧
        ∀ c ∈ l1, accepts wReq [] [] dur c = false :=
  schedule_exam_first_accepted_candidate wReq [] [] 600 600 "Instructor" none rfl

/-- C3 counterexample: the duration parser of the canonical scheduler
(`parse_duration` of resolve_slots.py, the scheduler `runner.py` invokes)
maps the decimal-hours string "1.5" to `int(float("1.5")) = 1` minute,
not to 90 minutes as the claim states. -/
theorem parse_duration_decimal_hours_refuted :
    parse_duration (some "1.5") = .ok 1 ∧ ¬ parse_duration (some "1.5") = .ok 90 := by
  refine ⟨rfl, fun hc => ?_⟩
  have h1 : parse_duration (some "1.5") = .ok 1 := rfl
  rw [hc] at h1
  simp only [Except.ok.injEq] at h1
  exact absurd h1 (by decide)

/-- C3 (amended): the canonical duration parser accepts three shapes and
returns minutes — an H:MM colon form with integer-literal parts yields
H*60+M; any colon-free decimal string yields its float value truncated
toward zero, so a bare number string yields exactly that many minutes
while a decimal-hours string such as "1.5" yields 1 (not 90). -/
theorem parse_duration_three_forms_amended :
    (∀ v h m, hasChar v ':' = true →
       pyStrip v ≠ "" →
       pyInt? (String.mk (v.data.takeWhile (fun c => c != ':'))) = some h →
       pyInt? (String.mk ((v.data.dropWhile (fun c => c != ':')).tail)) = some m →
       parse_duration (some v) = .ok (h * 60 + m)) ∧
    (∀ v n, hasChar v ':' = false → pyFloat? v = some (n, 0) →
       parse_duration (some v) = .ok n) ∧
    (∀ v q, hasChar v ':' = false → pyFloat? v = some q →
       parse_duration (some v) = .ok (floatTrunc q)) := by
  have main : ∀ v q, hasChar v ':' = false → pyFloat? v = some q →
      parse_duration (some v) = .ok (floatTrunc q) := by
    intro v q hcolon hq
    cases hsb : (pyStrip v == "") with
    | true =>
      exfalso
      have h0 : pyStrip v = "" := eq_of_beq hsb
      have : pyFloat? v = none := by simp [pyFloat?, h0, signSplit]
      rw [this] at hq
      exact Option.noConfusion hq
    | false => simp [parse_duration, hsb, hcolon, hq]
  refine ⟨?_, ?_, main⟩
  · intro v h m hcolon hne hh hm
    have hbe : (pyStrip v == "") = false := beq_eq_false_iff_ne.mpr hne
    simp [parse_duration, hbe, hcolon, hh, hm]
  · intro v n hcolon hq
    have := main v (n, 0) hcolon hq
    simpa [floatTrunc] using this

/-- Witness for C3 (amended) on the three concrete shapes. -/
theorem parse_duration_three_forms_amended_witness :
    parse_duration (some "2:15") = .ok 135 ∧
    parse_duration (some "90") = .ok 90 ∧
    parse_duration (some "1.5") = .ok 1 :=
  ⟨parse_duration_three_forms_amended.1 "2:15" 2 15 rfl (by decide) rfl rfl,
   parse_duration_three_forms_amended.2.1 "90" 90 rfl rfl,
   parse_duration_three_forms_amended.2.2 "1.5" (15, 1) rfl rfl⟩

/-- C7: an empty exam-group list short-circuits to NO_EXAMS and a
non-empty group list with an empty rooms table short-circuits to
NO_ROOMS, both with an empty assignment map, identically for every
backend — the solver is never consulted and no exception escapes. -/
theorem ilp_empty_inputs_short_circuit :
    (∀ rooms objective tol bk,
       build_and_solve_ilp [] rooms objective tol bk = .ok ⟨[], "NO_EXAMS", some 0⟩) ∧
    (∀ g gs objective tol bk,
       build_and_solve_ilp (g :: gs) [] objective tol bk = .ok ⟨[], "NO_ROOMS", some 0⟩) :=
  ⟨fun _ _ _ _ => rfl, fun _ _ _ _ _ => rfl⟩

/-- C9 counterexample: `parse_duration` is not total — a colon-bearing
value whose parts are not integer literals (here "a:b") makes `int(h)`
raise an uncaught `ValueError`, which propagates to the caller. -/
theorem parse_duration_colon_raises : parse_duration (some "a:b") = .error () := rfl

/-- C9 (amended): `parse_duration` returns 0 (rather than recording a
failure) for `None`, empty, and colon-free unparsable values — though a
malformed colon form raises — and a zero duration yields zero-width
candidate intervals `[s, s)` that overlap nothing under the half-open
test, so the timetable-conflict and self-conflict checks cannot reject
such a candidate: acceptance reduces to the accommodation bound alone. -/
theorem parse_duration_zero_default_amended :
    (parse_duration none = .ok 0) ∧
    (∀ v, pyStrip v = "" → parse_duration (some v) = .ok 0) ∧
    (∀ v, hasChar v ':' = false → pyFloat? v = none → parse_duration (some v) = .ok 0) ∧
    (∀ slots s c, timetable_conflict slots s s c = false) ∧
    (∀ s a b, overlaps s s a b = false) ∧
    (∀ row slots existing c, accepts row slots existing 0 c = check_noam_nopm row c.2 c.2) := by
  refine ⟨rfl, ?_, ?_, timetable_conflict_zero_width, overlaps_self_zero, ?_⟩
  · intro v hv
    have hbe : (pyStrip v == "") = true := beq_iff_eq.mpr hv
    simp [parse_duration, hbe]
  · intro v hcolon hq
    cases hsb : (pyStrip v == "") with
    | true => simp [parse_duration, hsb]
    | false => simp [parse_duration, hsb, hcolon, hq]
  · intro row slots existing c
    simp [accepts, timetable_conflict_zero_width, overlaps_self_zero]

/-- Witness for C9 (amended) at concrete inputs. -/
theorem parse_duration_zero_default_amended_witness :
    parse_duration (some " ") = .ok 0 ∧
    parse_duration (some "abc") = .ok 0 ∧
    timetable_conflict [⟨0, 0, 1440, none⟩] 500 500 "c" = false :=
  ⟨parse_duration_zero_default_amended.2.1 " " rfl,
   parse_duration_zero_default_amended.2.2.1 "abc" rfl rfl,
   parse_duration_zero_default_amended.2.2.2.1 [⟨0, 0, 1440, none⟩] 500 "c"⟩

/-- Rewriting a guarded singleton `flatMap` as filter-then-map. -/
theorem flatMap_if_singleton {α β : Type} (p : α → Bool) (g : α → β) :
    ∀ l : List α, (l.flatMap (fun a => if p a then [g a] else [])) = (l.filter p).map g := by
  intro l
  induction l with
  | nil => rfl
  | cons a t ih =>
    cases hp : p a <;> simp [List.flatMap_cons, List.filter_cons, hp, ih]

/-- C4 counterexample: with the "8:00 am up to a week AFTER" column set to
N and the "5:00 pm up to a week AFTER" column set to Y, the enabled
week-after option contributes NO candidate (only the first week-matching
column is consulted); and with the single 8:00 am week column set to Y,
14 week candidates are appended (both times for every day offset), not 7
— so "one candidate set of 7 per enabled week-after option" fails in both
directions. -/
theorem build_candidates_week_option_refuted :
    build_candidates ⟨"s", "c", none, some 0, "", "",
      [("8:00 am up to a week AFTER the exam", "N"),
       ("5:00 pm up to a week AFTER the exam", "Y")]⟩ 0 = [("Instructor", 0)] ∧
    (build_candidates ⟨"s", "c", none, some 0, "", "",
      [("8:00 am up to a week AFTER the exam", "Y")]⟩ 0).length = 15 :=
  ⟨rfl, rfl⟩

/-- C4 (amended): `build_candidates` returns the instructor time first,
then one candidate per enabled fixed-offset flag in the declared order,
then the week-after block driven solely by the first week-and-after
column: if it reads Y, for each day offset 1..7 in ascending order a
08:00 candidate and then a 17:00 candidate are appended, each label
encoding the offset; any other week-after column is ignored. -/
theorem build_candidates_order_amended (row : Row) (inst : Int) :
    build_candidates row inst = build_candidates_amended row inst := by
  rw [build_candidates, build_candidates_amended, flatMap_if_singleton]
  cases hw : row.cols.find? (fun p =>
      strContains (pyLower p.1) "week" && strContains (pyLower p.1) "after") with
  | none => simp [hw]
  | some cv =>
    cases hy : (pyUpper cv.2 == "Y") with
    | false => simp [hw, hy]
    | true =>
      simp only [hw, hy, if_true]
      rw [show List.range 7 = [0, 1, 2, 3, 4, 5, 6] from rfl]
      simp [List.flatMap_cons, hmLabel]

/-- An indexed element of a list is a member of its numbered enumeration. -/
theorem mem_enumFrom_get? {α : Type} :
    ∀ (l : List α) (i : Nat) (a : α) (n : Nat),
      l.get? i = some a → (n + i, a) ∈ l.enumFrom n := by
  intro l
  induction l with
  | nil => intro i a n h; simp [List.get?] at h
  | cons b t ih =>
    intro i a n h
    cases i with
    | zero =>
      simp only [List.get?] at h
      cases h
      simp [List.enumFrom]
    | succ j =>
      simp only [List.get?] at h
      have hmem := ih j a (n + 1) h
      have heq : n + (j + 1) = (n + 1) + j := by omega
      rw [heq]
      exact List.mem_cons_of_mem _ hmem

theorem mem_enum_get? {α : Type} (l : List α) (i : Nat) (a : α)
    (h : l.get? i = some a) : (i, a) ∈ l.enum := by
  have := mem_enumFrom_get? l i a 0 h
  simpa [List.enum] using this

/-- The room list the extraction pairs with group `i` is exactly the
filtered location list. -/
theorem extract_mem {n : Nat} {locs : List String} {sol : Var → Bool} {i : Nat}
    {lst : List String} (h : (i, lst) ∈ extractAssignment n locs sol) :
    lst = locs.filter (fun r => sol (Var.x i r)) := by
  simp only [extractAssignment, List.mem_map] at h
  obtain ⟨j, hj, hpair⟩ := h
  simp only [Prod.mk.injEq] at hpair
  obtain ⟨h1, h2⟩ := hpair
  subst h1
  exact h2.symm

/-- C5: whenever a room's availability window is present and a group's
interval is not fully contained in it (start too early or end too late),
the built model contains the forcing constraint `x[i, r] = 0`; hence no
variable assignment satisfying the model sets that pair, and the pair
appears in no assignment map the optimizer returns from a satisfying
solver outcome. -/
theorem ilp_availability_forces_zero
    (groups : List Group) (rooms : List RoomRow) (objective : String) (tol : Int)
    (m : BuiltModel) (i : Nat) (g : Group) (r : String) (info : RInfo) (rs re : Int)
    (hb : buildModel groups rooms tol objective = .ok m)
    (hg : groups.get? i = some g)
    (hinfo : roomInfo? (roomInfoOf rooms) r = some info)
    (hr : r ∈ m.locs)
    (hst : info.start? = some rs)
    (hen : info.stop? = some re)
    (hviol : g.start < rs ∨ g.stop > re) :
    Constr.eqZero (Var.x i r) ∈ m.constraints ∧
    (∀ sol, satAll m.constraints sol = true → sol (Var.x i r) = false) ∧
    (∀ bk oc lst, bk.solve = .ok oc → satAll m.constraints oc.sol = true →
      (i, lst) ∈ (solvePhase groups.length m.locs bk).assignment_map → r ∉ lst) := by
  simp only [buildModel] at hb
  cases hall : (dedupFirst (rooms.map RoomRow.location)).all
      (fun r => (roomInfo? (roomInfoOf rooms) r).isSome) with
  | false => rw [hall] at hb; simp at hb
  | true =>
    rw [hall] at hb
    simp only [if_true, Except.ok.injEq] at hb
    subst hb
    have hmem1 : Constr.eqZero (Var.x i r) ∈
        constraintsOf groups (dedupFirst (rooms.map RoomRow.location))
          (fun rr => (roomInfo? (roomInfoOf rooms) rr).getD ⟨1, none, none⟩) tol := by
      rw [constraintsOf]
      apply List.mem_append_left
      apply List.mem_append_left
      apply List.mem_append_right
      rw [List.mem_flatMap]
      refine ⟨(i, g), mem_enum_get? groups i g hg, ?_⟩
      rw [List.mem_flatMap]
      refine ⟨r, hr, ?_⟩
      rw [hinfo]
      simp only [Option.getD_some, hst, hen]
      rcases hviol with hv | hv
      · apply List.mem_append_left
        simp [hv]
      · apply List.mem_append_right
        simp [hv]
    refine ⟨hmem1, ?_, ?_⟩
    · intro sol hsatall
      have := List.all_eq_true.mp hsatall _ hmem1
      simpa [satC] using this
    · intro bk oc lst hbk hsat hmemmap hrin
      have hzero : oc.sol (Var.x i r) = false := by
        have := List.all_eq_true.mp hsat _ hmem1
        simpa [satC] using this
      have hkey : ∀ lst2, (i, lst2) ∈
          extractAssignment groups.length (dedupFirst (rooms.map RoomRow.location)) oc.sol →
          r ∉ lst2 := by
        intro lst2 hmem2 hrin2
        rw [extract_mem hmem2] at hrin2
        have := (List.mem_filter.mp hrin2).2
        rw [hzero] at this
        exact Bool.noConfusion this
      simp only [solvePhase, hbk] at hmemmap
      cases hstat : oc.status with
      | optimal =>
        rw [hstat] at hmemmap
        exact hkey lst hmemmap hrin
      | infeasible => rw [hstat] at hmemmap; simp at hmemmap
      | timeLimit =>
        rw [hstat] at hmemmap
        by_cases hsc : oc.solCount > 0
        · rw [if_pos hsc] at hmemmap
          exact hkey lst hmemmap hrin
        · rw [if_neg hsc] at hmemmap
          simp at hmemmap
      | other code => rw [hstat] at hmemmap; simp at hmemmap

/-- Witness for C5: a one-group, two-room instance where room R's window
opens after the exam starts — the forcing constraint on (group 0, R) is in
the built constraint list. -/
theorem ilp_availability_forces_zero_witness :
    Constr.eqZero (Var.x 0 "R") ∈
      [Constr.sumEqOne [Var.x 0 "R", Var.x 0 "S"],
       Constr.leCap [(1, Var.x 0 "R")] 10,
       Constr.leCap [(1, Var.x 0 "S")] 5,
       Constr.eqZero (Var.x 0 "R"),
       Constr.linkLe (Var.x 0 "R") (Var.y "R"),
       Constr.linkLe (Var.x 0 "S") (Var.y "S")] :=
  (ilp_availability_forces_zero [⟨600, 660, 1⟩]
    [⟨"R", some 10, some 700, some 800⟩, ⟨"S", some 5, some 0, some 10000⟩]
    "minimize_rooms" 0
    ⟨["R", "S"],
     [Constr.sumEqOne [Var.x 0 "R", Var.x 0 "S"],
      Constr.leCap [(1, Var.x 0 "R")] 10,
      Constr.leCap [(1, Var.x 0 "S")] 5,
      Constr.eqZero (Var.x 0 "R"),
      Constr.linkLe (Var.x 0 "R") (Var.y "R"),
      Constr.linkLe (Var.x 0 "S") (Var.y "S")],
     [((1, 1), Var.y "R"), ((1, 1), Var.y "S")]⟩
    0 ⟨600, 660, 1⟩ "R" ⟨10, some 700, some 800⟩ 700 800
    rfl rfl rfl (by simp) rfl rfl (Or.inl (by decide))).1

/-- C6 counterexample: a fault-free solver backend, one exam group, and a
rooms table whose single location reads "nan": the row is skipped when
`room_info` is built but its raw value still populates `room_locations`,
so the capacity-constraint loop raises an uncaught `KeyError` during
model construction — `build_and_solve_ilp` raises to its caller instead
of returning status ERROR. -/
theorem ilp_construction_fault_escapes :
    build_and_solve_ilp [⟨600, 660, 1⟩] [⟨"nan", some 5, none, none⟩]
      "minimize_rooms" 0 ⟨none, .ok ⟨.optimal, 1, fun _ => false, 0⟩⟩ = .error () := rfl

/-- C6 (amended): faults raised by the solver during the solve phase (the
source's `try` block around `optimize` and solution extraction) are caught
and surface as status ERROR with an empty assignment map; but faults
during model construction — solver-API faults before the `try`, or the
`KeyError` on a malformed room row — are NOT caught and propagate to the
caller. -/
theorem ilp_fault_handling_amended :
    (∀ (g : Group) gs (r : RoomRow) rrows objective tol (bk : Backend) m,
       bk.buildFault = none →
       buildModel (g :: gs) (r :: rrows) tol objective = .ok m →
       bk.solve = .error () →
       build_and_solve_ilp (g :: gs) (r :: rrows) objective tol bk =
         .ok ⟨[], "ERROR", none⟩) ∧
    (∀ (g : Group) gs (r : RoomRow) rrows objective tol (bk : Backend) f,
       bk.buildFault = some f →
       build_and_solve_ilp (g :: gs) (r :: rrows) objective tol bk = .error f) := by
  constructor
  · intro g gs r rrows objective tol bk m hbf hbm hsolve
    simp [build_and_solve_ilp, hbf, hbm, solvePhase, hsolve]
  · intro g gs r rrows objective tol bk f hbf
    simp [build_and_solve_ilp, hbf]

/-- Witness for C6 (amended): a concrete solve-phase fault degrades to
ERROR, and a concrete construction-phase solver fault escapes. -/
theorem ilp_fault_handling_amended_witness :
    build_and_solve_ilp [⟨600, 660, 1⟩] [⟨"R", some 5, none, none⟩] "minimize_rooms" 0
      ⟨none, .error ()⟩ = .ok ⟨[], "ERROR", none⟩ ∧
    build_and_solve_ilp [⟨600, 660, 1⟩] [⟨"R", some 5, none, none⟩] "minimize_rooms" 0
      ⟨some (), .error ()⟩ = .error () :=
  ⟨ilp_fault_handling_amended.1 ⟨600, 660, 1⟩ [] ⟨"R", some 5, none, none⟩ []
     "minimize_rooms" 0 ⟨none, .error ()⟩
     ⟨["R"],
      [Constr.sumEqOne [Var.x 0 "R"],
       Constr.leCap [(1, Var.x 0 "R")] 5,
       Constr.linkLe (Var.x 0 "R") (Var.y "R")],
      [((1, 1), Var.y "R")]⟩
     rfl rfl rfl,
   ilp_fault_handling_amended.2 ⟨600, 660, 1⟩ [] ⟨"R", some 5, none, none⟩ []
     "minimize_rooms" 0 ⟨some (), .error ()⟩ () rfl⟩

/-- Parsing a row's cells is idempotent: the second pass sees already
parsed datetimes and already cleared assignment columns. -/
theorem parseRow_idem (p : String → Option Int) (r : ExamRow) :
    parseRow p (parseRow p r) = parseRow p r := rfl

/-- Unfolding of one loop step. -/
theorem rowLoop_cons (core : StepIn → Asg → RoomWrite × Asg) (r : ExamRow)
    (t : List ExamRow) (asg : Asg) :
    rowLoop core (r :: t) asg =
      applyWrite r (core (readIn r) asg).1 :: rowLoop core t (core (readIn r) asg).2 := rfl

/-- Re-parsing the output row of an assignment step on a parse-stable row
only re-clears what the step wrote, leaving the written status in the
`Status` alias cell. -/
theorem parseRow_after_write (p : String → Option Int) (r : ExamRow) (w : RoomWrite)
    (hfix : parseRow p r = r) :
    parseRow p (setAlias (applyWrite r w)) = { r with statusAlias := w.roomStatus } := by
  have h1 := congrArg ExamRow.schedStart hfix
  have h2 := congrArg ExamRow.schedEnd hfix
  have h3 := congrArg ExamRow.roomId hfix
  have h4 := congrArg ExamRow.roomName hfix
  have h5 := congrArg ExamRow.roomLoc hfix
  have h6 := congrArg ExamRow.roomStatus hfix
  simp only [parseRow] at h1 h2 h3 h4 h5 h6
  ext <;> simp_all [parseRow, setAlias, applyWrite, tvalParse]

/-- Feeding the (alias-stamped) output of the assignment loop back through
the parse pass and the loop reproduces the same final table: each step
reads only parse-stable fields and rewrites the same cells. -/
theorem rowLoop_idem (core : StepIn → Asg → RoomWrite × Asg) (p : String → Option Int) :
    ∀ (l : List ExamRow) (asg : Asg), (∀ r ∈ l, parseRow p r = r) →
      (rowLoop core ((rowLoop core l asg).map (fun r => parseRow p (setAlias r))) asg).map
          setAlias
        = (rowLoop core l asg).map setAlias := by
  intro l
  induction l with
  | nil => intro asg _; rfl
  | cons r t ih =>
    intro asg hfix
    have hr : parseRow p r = r := hfix r (List.mem_cons_self r t)
    have ht : ∀ x ∈ t, parseRow p x = x := fun x hx => hfix x (List.mem_cons_of_mem r hx)
    rw [rowLoop_cons core r t asg, List.map_cons, rowLoop_cons,
      parseRow_after_write p r _ hr, List.map_cons, List.map_cons]
    have hread : readIn { r with statusAlias := (core (readIn r) asg).1.roomStatus } =
        readIn r := rfl
    rw [hread]
    congr 1
    exact ih ((core (readIn r) asg).2) ht

/-- C8: the greedy room assigner is deterministic and idempotent — rerunning
`_assign_rooms_greedy` on the table it just produced, with the same room
search results, yields an identical table: identical per-row room
identifiers and identical per-row assignment statuses (all state it reads
is re-derived from the same inputs; the occupancy accumulator restarts
empty on each call). -/
theorem greedy_assignment_idempotent (p : String → Option Int) (df : List ExamRow)
    (results : List SearchResult) :
    assign_rooms_greedy p (assign_rooms_greedy p df results) results =
      assign_rooms_greedy p df results := by
  unfold assign_rooms_greedy
  have hfix : ∀ r ∈ df.map (parseRow p), parseRow p r = r := by
    intro r hr
    obtain ⟨x, _, rfl⟩ := List.mem_map.mp hr
    exact parseRow_idem p x
  have key := rowLoop_idem (stepCore (roomMapOf results)) p (df.map (parseRow p)) [] hfix
  simpa [List.map_map, Function.comp_def] using key

/-- Setting an existing index of the store changes exactly that cell. -/
theorem storeGet_set_self (σ : Store) (ref : Nat) (v : List ExamRow)
    (h : ref < σ.length) : storeGet (σ.set ref v) ref = v := by
  induction σ generalizing ref with
  | nil => simp at h
  | cons a t ih =>
    cases ref with
    | zero => rfl
    | succ j =>
      simp only [List.length_cons, Nat.succ_lt_succ_iff] at h
      simpa [storeGet, List.set, List.get?] using ih j h

/-- Every row the assignment loop emits keeps the scheduled-time cells of
some input row. -/
theorem rowLoop_sched_mem (core : StepIn → Asg → RoomWrite × Asg) :
    ∀ (l : List ExamRow) (asg : Asg) (r : ExamRow), r ∈ rowLoop core l asg →
      ∃ r0 ∈ l, r.schedStart = r0.schedStart ∧ r.schedEnd = r0.schedEnd := by
  intro l
  induction l with
  | nil => intro asg r h; simp [rowLoop] at h
  | cons a t ih =>
    intro asg r h
    rw [rowLoop_cons] at h
    rcases List.mem_cons.mp h with h | h
    · subst h
      exact ⟨a, List.mem_cons_self a t, rfl, rfl⟩
    · obtain ⟨r0, hr0, he⟩ := ih _ r h
      exact ⟨r0, List.mem_cons_of_mem a hr0, he⟩

/-- C10: the greedy path mutates its input object in place — after the
call the caller's DataFrame holds the table with the four assignment
columns filled and the `Scheduled Start`/`Scheduled End` cells overwritten
by parsed datetimes — whereas the ILP application copies first: the
caller's object is unchanged and the result is a fresh object holding the
assigned table. -/
theorem frame_effects_greedy_vs_ilp (p : String → Option Int) (σ : Store) (ref : Nat)
    (results : List SearchResult) (groups : List Group) (ilpResult : IlpResult)
    (roomsOpt : Option (List RoomRow)) (h : ref < σ.length) :
    ((greedy_call p σ ref results).2 = ref ∧
     storeGet (greedy_call p σ ref results).1 ref =
       assign_rooms_greedy p (storeGet σ ref) results ∧
     (∀ row ∈ storeGet (greedy_call p σ ref results).1 ref,
        (∃ t, row.schedStart = TVal.dt t) ∧ (∃ t, row.schedEnd = TVal.dt t))) ∧
    (storeGet (ilp_apply_call p σ ref groups ilpResult roomsOpt).1 ref = storeGet σ ref ∧
     (ilp_apply_call p σ ref groups ilpResult roomsOpt).2 ≠ ref ∧
     storeGet (ilp_apply_call p σ ref groups ilpResult roomsOpt).1
         (ilp_apply_call p σ ref groups ilpResult roomsOpt).2 =
       apply_ilp_assignments_to_dataframe p (storeGet σ ref) groups ilpResult roomsOpt) := by
  refine ⟨⟨rfl, ?_, ?_⟩, ?_, ?_, ?_⟩
  · exact storeGet_set_self σ ref _ h
  · intro row hrow
    simp only [greedy_call] at hrow
    rw [storeGet_set_self σ ref _ h] at hrow
    rw [assign_rooms_greedy] at hrow
    obtain ⟨r1, hr1, rfl⟩ := List.mem_map.mp hrow
    obtain ⟨r0, hr0, hs, he⟩ := rowLoop_sched_mem _ _ _ _ hr1
    obtain ⟨x, _, rfl⟩ := List.mem_map.mp hr0
    constructor
    · exact ⟨tvalParse p x.schedStart, by simp [setAlias, hs, parseRow]⟩
    · exact ⟨tvalParse p x.schedEnd, by simp [setAlias, he, parseRow]⟩
  · show storeGet (σ ++ [_]) ref = storeGet σ ref
    unfold storeGet
    rw [List.get?_append h]
  · show σ.length ≠ ref
    omega
  · show storeGet (σ ++ [_]) σ.length = _
    unfold storeGet
    rw [List.get?_concat_length]
    rfl

/-- Witness for C10 on a one-object store. -/
theorem frame_effects_greedy_vs_ilp_witness :
    (greedy_call (fun _ => none) [[]] 0 []).2 = 0 ∧
    storeGet (greedy_call (fun _ => none) [[]] 0 []).1 0 =
      assign_rooms_greedy (fun _ => none) (storeGet [[]] 0) [] ∧
    storeGet (ilp_apply_call (fun _ => none) [[]] 0 [] ⟨[], "OPTIMAL", none⟩ none).1 0 =
      storeGet [[]] 0 ∧
    storeGet (ilp_apply_call (fun _ => none) [[]] 0 [] ⟨[], "OPTIMAL", none⟩ none).1
        (ilp_apply_call (fun _ => none) [[]] 0 [] ⟨[], "OPTIMAL", none⟩ none).2 =
      apply_ilp_assignments_to_dataframe (fun _ => none) (storeGet [[]] 0) []
        ⟨[], "OPTIMAL", none⟩ none :=
  ⟨(frame_effects_greedy_vs_ilp (fun _ => none) [[]] 0 [] [] ⟨[], "OPTIMAL", none⟩ none
      (by decide)).1.1,
   (frame_effects_greedy_vs_ilp (fun _ => none) [[]] 0 [] [] ⟨[], "OPTIMAL", none⟩ none
      (by decide)).1.2.1,
   (frame_effects_greedy_vs_ilp (fun _ => none) [[]] 0 [] [] ⟨[], "OPTIMAL", none⟩ none
      (by decide)).2.1,
   (frame_effects_greedy_vs_ilp (fun _ => none) [[]] 0 [] [] ⟨[], "OPTIMAL", none⟩ none
      (by decide)).2.2.2⟩



